import Mathlib

/-!
# Project permission grants of the Tableau provider

A shallow embedding of `tableau/project_permissions.go` (the client calls
`GetProjectPermissions`, `AddProjectPermission`, `DeleteProjectPermission`) and of
`tableau/project_permission_resource.go` (the resource callbacks `Create`, `Read`,
`Delete`, `ImportState`, `ConfigValidators`), followed by the properties proved
about them.

Conventions of the embedding

* A Go `string` is a Lean `String`; `strings.Split` on the one-character separator
  `":"` is defined on the characters of the string.
* `types.String` of the plugin framework is the three-state `StringValue`.
* `fmt.Sprintf` with `%s` verbs on strings is string concatenation. The detail of a
  diagnostic is kept as the format string together with its arguments.
* The HTTP layer is a parameter of `Client`: `newRequestError` is the verdict of
  `http.NewRequest` on a request, `doRequest` is the method `Client.doRequest`, and
  `unmarshal` is `json.Unmarshal` into `ProjectPermissionsWrapperResponse`. Every
  client call returns, next to its result, the list of the requests it handed to
  `doRequest`, oldest first: a request that `http.NewRequest` rejects is never
  built and is not in the list. The body of a request is the document handed to
  `json.Marshal`.
-/

namespace strings

/-- Fields of a character sequence separated by `sep`; there is always one field
more than there are separators, as for Go's `strings.Split` with a non-empty
separator. -/
def splitChars (sep : Char) : List Char → List (List Char)
  | [] => [[]]
  | c :: cs =>
    if c = sep then [] :: splitChars sep cs
    else
      match splitChars sep cs with
      | [] => [[c]]
      | field :: fields => (c :: field) :: fields

/-- Go's `strings.Split(s, sep)` for a separator of one character. -/
def Split (s : String) (sep : Char) : List String :=
  (splitChars sep s.data).map String.mk

end strings

namespace tableau

/-- The framework's `types.String`: a string attribute is null, unknown, or holds
a known value. -/
inductive StringValue where
  | null
  | unknown
  | known (value : String)
  deriving DecidableEq, Repr

namespace StringValue

/-- Go's `StringValue.IsNull`. -/
def IsNull : StringValue → Bool
  | null => true
  | _ => false

/-- Go's `StringValue.ValueString`: the known value, and `""` for null and
unknown. -/
def ValueString : StringValue → String
  | known value => value
  | _ => ""

end StringValue

/-- Source type `Capability`. -/
structure Capability where
  Name : String
  Mode : String
  deriving DecidableEq, Repr

/-- Source type `CapabilitiesWrapper`. -/
structure CapabilitiesWrapper where
  Capability : List Capability
  deriving DecidableEq, Repr

/-- Modelled from the spec: the type `Owner` is declared in a file of the
repository that is not among the sources; the wire shape of the spec gives a
grantee as `"group"?: ("id": string)`, and the code reads and writes the field
`ID` only. -/
structure Owner where
  ID : String
  deriving DecidableEq, Repr

/-- Modelled from the spec: the type `Project` is declared in a file of the
repository that is not among the sources; the spec shows it as the object
`"project"` of the wire shape without naming fields, and no function here reads
or builds one, so only its identifier is kept. -/
structure Project where
  ID : String
  deriving DecidableEq, Repr

/-- Source type `GranteeCapability`; a nil pointer is `none`. -/
structure GranteeCapability where
  Group : Option Owner
  User : Option Owner
  Capabilities : CapabilitiesWrapper
  deriving DecidableEq, Repr

/-- Source type `ProjectPermissionsResponse`. -/
structure ProjectPermissionsResponse where
  Project : Option Project
  GranteeCapabilities : List GranteeCapability
  deriving DecidableEq, Repr

/-- Source type `ProjectPermissionsWrapperResponse`. -/
structure ProjectPermissionsWrapperResponse where
  Permissions : ProjectPermissionsResponse
  deriving DecidableEq, Repr

/-- Source type `ProjectPermission`. -/
structure ProjectPermission where
  ProjectID : String
  GroupID : String
  UserID : String
  CapabilityName : String
  CapabilityMode : String
  deriving DecidableEq, Repr

/-- A request as given to `http.NewRequest`: method, URL and body. -/
structure Request where
  Method : String
  URL : String
  Body : Option ProjectPermissionsWrapperResponse
  deriving DecidableEq, Repr

/-- The client. Its declaration and its method `doRequest` are in a file of the
repository that is not among the sources, so the parts the three calls below use
are taken as they are: the field `ApiUrl`, and as parameters the verdict of
`http.NewRequest` on a request (`none` when it accepts it), the method
`doRequest` (the response body or an error), and `json.Unmarshal` of a response
body. -/
structure Client where
  ApiUrl : String
  newRequestError : Request → Option String
  doRequest : Request → Except String String
  unmarshal : String → Except String ProjectPermissionsWrapperResponse

namespace Client

/-- Source `Client.GetProjectPermissions`. -/
def GetProjectPermissions (c : Client) (projectID : String) :
    Except String (List GranteeCapability) × List Request :=
  let req : Request :=
    { Method := "GET", URL := c.ApiUrl ++ "/projects/" ++ projectID ++ "/permissions", Body := none }
  match c.newRequestError req with
  | some err => (.error err, [])
  | none =>
    match c.doRequest req with
    | .error err => (.error err, [req])
    | .ok body =>
      match c.unmarshal body with
      | .error err => (.error err, [req])
      | .ok userResponse => (.ok userResponse.Permissions.GranteeCapabilities, [req])

/-- The document `reqBody` that `Client.AddProjectPermission` builds before it
marshals it. -/
def AddProjectPermission.reqBody (p : ProjectPermission) : ProjectPermissionsWrapperResponse :=
  let capabilities : CapabilitiesWrapper :=
    { Capability := [{ Name := p.CapabilityName, Mode := p.CapabilityMode }] }
  let gc : GranteeCapability :=
    if p.GroupID ≠ "" then
      { Group := some { ID := p.GroupID }, User := none, Capabilities := capabilities }
    else
      { Group := none, User := some { ID := p.UserID }, Capabilities := capabilities }
  { Permissions := { Project := none, GranteeCapabilities := [gc] } }

/-- Source `Client.AddProjectPermission`; the result is the error, if any.
`json.Marshal` does not fail on a document made of strings. -/
def AddProjectPermission (c : Client) (p : ProjectPermission) : Option String × List Request :=
  let reqBody := AddProjectPermission.reqBody p
  let url := c.ApiUrl ++ "/projects/" ++ p.ProjectID ++ "/permissions"
  let req : Request := { Method := "PUT", URL := url, Body := some reqBody }
  match c.newRequestError req with
  | some err => (some err, [])
  | none =>
    match c.doRequest req with
    | .error err => (some err, [req])
    | .ok _ => (none, [req])

/-- The URL that `Client.DeleteProjectPermission` builds. -/
def DeleteProjectPermission.url (c : Client) (p : ProjectPermission) : String :=
  if p.GroupID ≠ "" then
    c.ApiUrl ++ "/projects/" ++ p.ProjectID ++ "/permissions/groups/" ++ p.GroupID ++ "/"
      ++ p.CapabilityName ++ "/" ++ p.CapabilityMode
  else
    c.ApiUrl ++ "/projects/" ++ p.ProjectID ++ "/permissions/users/" ++ p.UserID ++ "/"
      ++ p.CapabilityName ++ "/" ++ p.CapabilityMode

/-- Source `Client.DeleteProjectPermission`; the result is the error, if any. -/
def DeleteProjectPermission (c : Client) (p : ProjectPermission) : Option String × List Request :=
  let url := DeleteProjectPermission.url c p
  let req : Request := { Method := "DELETE", URL := url, Body := none }
  match c.newRequestError req with
  | some err => (some err, [])
  | none =>
    match c.doRequest req with
    | .error err => (some err, [req])
    | .ok _ => (none, [req])

end Client

/-- Source type `projectPermissionResourceModel`. -/
structure projectPermissionResourceModel where
  ProjectID : StringValue
  GroupID : StringValue
  UserID : StringValue
  CapabilityName : StringValue
  CapabilityMode : StringValue
  deriving DecidableEq, Repr

/-- An error diagnostic: its summary, and its detail as the format string with
the arguments given to `fmt.Sprintf`. -/
structure Diagnostic where
  Summary : String
  Format : String
  Args : List String
  deriving DecidableEq, Repr

/-- What a `Create`, `Read` or `Delete` callback leaves in its response: the
diagnostics, and the value given to `resp.State.Set` when it was called. -/
structure Response where
  Diagnostics : List Diagnostic
  State : Option projectPermissionResourceModel
  deriving DecidableEq, Repr

/-- What `ImportState` leaves in its response: the diagnostics, and the state
after the calls of `SetAttribute`. -/
structure ImportStateResponse where
  Diagnostics : List Diagnostic
  State : projectPermissionResourceModel
  deriving DecidableEq, Repr

/-- The state before any attribute is set: every attribute is null. -/
def emptyState : projectPermissionResourceModel :=
  { ProjectID := .null, GroupID := .null, UserID := .null,
    CapabilityName := .null, CapabilityMode := .null }

namespace projectPermissionResource

/-- Source `projectPermissionResource.Create`, on the plan already read into
the model. -/
def Create (c : Client) (plan : projectPermissionResourceModel) : Response × List Request :=
  let projectPermission : ProjectPermission :=
    { ProjectID := plan.ProjectID.ValueString,
      GroupID := plan.GroupID.ValueString,
      UserID := plan.UserID.ValueString,
      CapabilityName := plan.CapabilityName.ValueString,
      CapabilityMode := plan.CapabilityMode.ValueString }
  match c.AddProjectPermission projectPermission with
  | (some err, requests) =>
    ({ Diagnostics :=
         [{ Summary := "Error creating project permissions",
            Format := "Could not create project permissions, unexpected error: %s",
            Args := [err] }],
       State := none }, requests)
  | (none, requests) => ({ Diagnostics := [], State := some plan }, requests)

/-- The two nested loops of `projectPermissionResource.Read`: the value of `found`
after scanning every capability of every fetched grantee-capability set. -/
def Read.found (state : projectPermissionResourceModel) (permissions : List GranteeCapability) :
    Bool :=
  let userSearch := !state.UserID.IsNull
  permissions.foldl
    (fun found permission =>
      permission.Capabilities.Capability.foldl
        (fun found capability =>
          if capability.Name = state.CapabilityName.ValueString
              ∧ capability.Mode = state.CapabilityMode.ValueString then
            if userSearch then
              match permission.User with
              | some user => if user.ID = state.UserID.ValueString then true else found
              | none => found
            else
              match permission.Group with
              | some group => if group.ID = state.GroupID.ValueString then true else found
              | none => found
          else found)
        found)
    false

/-- Source `projectPermissionResource.Read`, on the state already read into the
model. -/
def Read (c : Client) (state : projectPermissionResourceModel) : Response × List Request :=
  match c.GetProjectPermissions state.ProjectID.ValueString with
  | (.error err, requests) =>
    ({ Diagnostics :=
         [{ Summary := "Error Reading Tableau Project Permissions",
            Format := "Could not read Tableau Project Permissions for ProjectID %s: %s",
            Args := [state.ProjectID.ValueString, err] }],
       State := none }, requests)
  | (.ok permissions, requests) =>
    if Read.found state permissions then
      ({ Diagnostics := [], State := some state }, requests)
    else
      ({ Diagnostics :=
           [{ Summary := "Error Finding Permission in existing permissions",
              Format := "no permission in the existing permissions",
              Args := [] }],
         State := none }, requests)

/-- Source `projectPermissionResource.Delete`, on the state already read into
the model. -/
def Delete (c : Client) (state : projectPermissionResourceModel) : Response × List Request :=
  let projectPermission : ProjectPermission :=
    { ProjectID := state.ProjectID.ValueString,
      GroupID := state.GroupID.ValueString,
      UserID := state.UserID.ValueString,
      CapabilityName := state.CapabilityName.ValueString,
      CapabilityMode := state.CapabilityMode.ValueString }
  match c.DeleteProjectPermission projectPermission with
  | (some err, requests) =>
    ({ Diagnostics :=
         [{ Summary := "Error Deleting Tableau Project permissions",
            Format := "Could not project permissions, unexpected error: %s",
            Args := [err] }],
       State := none }, requests)
  | (none, requests) => ({ Diagnostics := [], State := none }, requests)

/-- Source `projectPermissionResource.ImportState`, on the import identifier
`req.ID`. The state of the response starts with every attribute null, and
`SetAttribute` of a string on a string attribute adds no diagnostic. -/
def ImportState (ID : String) : ImportStateResponse :=
  match strings.Split ID ':' with
  | [part0, part1, part2, part3, part4] =>
    let s0 : projectPermissionResourceModel := { emptyState with ProjectID := .known part0 }
    let s1 := if part1 ≠ "" then { s0 with GroupID := .known part1 } else s0
    let s2 := if part2 ≠ "" then { s1 with UserID := .known part2 } else s1
    let s3 := { s2 with CapabilityName := .known part3 }
    let s4 := { s3 with CapabilityMode := .known part4 }
    { Diagnostics := [], State := s4 }
  | _ =>
    { Diagnostics :=
        [{ Summary := "Unexpected Import Identifier",
           Format := "Expected import identifier with format: `project_id:group_id:user_id:capability_name:capability_mode`. Got: %q",
           Args := [ID] }],
      State := emptyState }

/-- The test made on one capability of one fetched set by the loop body of
`Read`: name and mode equal the declared ones, and the grantee of the set is the
declared one (the user when `user_id` is not null, the group otherwise). -/
def Read.isMatch (state : projectPermissionResourceModel) (permission : GranteeCapability)
    (capability : Capability) : Bool :=
  decide (capability.Name = state.CapabilityName.ValueString
      ∧ capability.Mode = state.CapabilityMode.ValueString) &&
    (if !state.UserID.IsNull then
      match permission.User with
      | some user => decide (user.ID = state.UserID.ValueString)
      | none => false
    else
      match permission.Group with
      | some group => decide (group.ID = state.GroupID.ValueString)
      | none => false)

/-- The search of the spec inside one set, stopping at the first match:
"returns true on first match found". -/
def Read.firstMatchIn (state : projectPermissionResourceModel) (permission : GranteeCapability) :
    List Capability → Bool
  | [] => false
  | capability :: rest =>
    if Read.isMatch state permission capability then true
    else Read.firstMatchIn state permission rest

/-- The search of the spec over the fetched sets, stopping at the first match:
"returns true on first match found; returns false if the full scan completes
with no match". -/
def Read.firstMatch (state : projectPermissionResourceModel) : List GranteeCapability → Bool
  | [] => false
  | permission :: rest =>
    if Read.firstMatchIn state permission permission.Capabilities.Capability then true
    else Read.firstMatch state rest

/-- Modelled from the spec: no function of the sources composes an import
identifier; the spec gives `encode(grant)` as
`projectID:groupID:userID:capabilityName:capabilityMode`, "using empty string for
whichever of groupID/userID is unset". -/
def encode (g : projectPermissionResourceModel) : String :=
  g.ProjectID.ValueString ++ ":" ++ g.GroupID.ValueString ++ ":" ++ g.UserID.ValueString ++ ":"
    ++ g.CapabilityName.ValueString ++ ":" ++ g.CapabilityMode.ValueString

end projectPermissionResource

/-- A client whose HTTP layer accepts every request and answers each with a
document holding the given grantee-capability sets. -/
def answeringClient (permissions : List GranteeCapability) : Client :=
  { ApiUrl := "https://tableau.example/api/3.19/sites/s1"
    newRequestError := fun _ => none
    doRequest := fun _ => .ok ""
    unmarshal := fun _ =>
      .ok { Permissions := { Project := none, GranteeCapabilities := permissions } } }

/-- Go's `ishex` of `net/url`: a hexadecimal digit. -/
def ishex (c : Char) : Bool :=
  ('0' ≤ c && c ≤ '9') || ('a' ≤ c && c ≤ 'f') || ('A' ≤ c && c ≤ 'F')

/-- Whether some percent sign is not followed by two hexadecimal digits, which is
what `net/url` reports as `invalid URL escape` when it parses a path. -/
def invalidEscape : List Char → Bool
  | [] => false
  | c :: rest =>
    if c = '%' then
      (match rest with
        | a :: b :: _ => !(ishex a && ishex b)
        | _ => true) || invalidEscape rest
    else invalidEscape rest

/-- A client whose `http.NewRequest` rejects a URL with an invalid percent
escape and accepts every other URL, and whose transport answers every request it
is handed with an empty document. -/
def escapeCheckingClient : Client :=
  { ApiUrl := "https://tableau.example/api/3.19/sites/s1"
    newRequestError := fun req =>
      if invalidEscape req.URL.data then some "invalid URL escape" else none
    doRequest := fun _ => .ok ""
    unmarshal := fun _ =>
      .ok { Permissions := { Project := none, GranteeCapabilities := [] } } }

end tableau

/-! ## Lemmas on `strings.Split` -/

namespace strings

theorem splitChars_length (sep : Char) (cs : List Char) :
    (splitChars sep cs).length = cs.count sep + 1 := by
  induction cs with
  | nil => simp [splitChars]
  | cons c cs ih =>
    unfold splitChars
    by_cases h : c = sep
    · subst h
      simp [ih]
    · have hc : (c == sep) = false := by simpa using h
      rw [if_neg h, List.count_cons, hc]
      revert ih
      cases splitChars sep cs with
      | nil => simp
      | cons field fields => simp

theorem splitChars_of_not_mem (sep : Char) (cs : List Char) (h : sep ∉ cs) :
    splitChars sep cs = [cs] := by
  induction cs with
  | nil => simp [splitChars]
  | cons c cs ih =>
    have hc : c ≠ sep := fun e => h (by simp [e])
    have hcs : sep ∉ cs := fun e => h (by simp [e])
    unfold splitChars
    rw [if_neg hc, ih hcs]

theorem splitChars_append_sep (sep : Char) (cs rest : List Char) (h : sep ∉ cs) :
    splitChars sep (cs ++ sep :: rest) = cs :: splitChars sep rest := by
  induction cs with
  | nil => simp [splitChars]
  | cons c cs ih =>
    have hc : c ≠ sep := fun e => h (by simp [e])
    have hcs : sep ∉ cs := fun e => h (by simp [e])
    rw [List.cons_append]
    conv => lhs; unfold splitChars
    rw [if_neg hc, ih hcs]

theorem Split_length (s : String) (sep : Char) :
    (Split s sep).length = s.data.count sep + 1 := by
  simp [Split, splitChars_length]

end strings

/-! ## Lemmas on the search of `Read` -/

namespace tableau

namespace projectPermissionResource

theorem foldl_or_any {α : Type} (f : Bool → α → Bool) (g : α → Bool)
    (hf : ∀ b a, f b a = (b || g a)) (l : List α) (b : Bool) :
    l.foldl f b = (b || l.any g) := by
  induction l generalizing b with
  | nil => simp
  | cons a l ih => simp [List.foldl_cons, ih, hf, Bool.or_assoc]

theorem Read.found_eq_any (state : projectPermissionResourceModel)
    (permissions : List GranteeCapability) :
    Read.found state permissions
      = permissions.any fun permission =>
          permission.Capabilities.Capability.any (Read.isMatch state permission) := by
  unfold Read.found
  rw [foldl_or_any _
    (fun permission => permission.Capabilities.Capability.any (Read.isMatch state permission))]
  · simp
  · intro b permission
    apply foldl_or_any
    intro found capability
    unfold Read.isMatch
    cases found <;> cases permission.User <;> cases permission.Group <;>
      cases state.UserID.IsNull <;> simp

theorem Read.firstMatchIn_eq_any (state : projectPermissionResourceModel)
    (permission : GranteeCapability) (capabilities : List Capability) :
    Read.firstMatchIn state permission capabilities
      = capabilities.any (Read.isMatch state permission) := by
  induction capabilities with
  | nil => rfl
  | cons capability rest ih =>
    simp only [Read.firstMatchIn, List.any_cons, ih]
    cases Read.isMatch state permission capability <;> simp

theorem Read.firstMatch_eq_any (state : projectPermissionResourceModel)
    (permissions : List GranteeCapability) :
    Read.firstMatch state permissions
      = permissions.any fun permission =>
          permission.Capabilities.Capability.any (Read.isMatch state permission) := by
  induction permissions with
  | nil => rfl
  | cons permission rest ih =>
    simp only [Read.firstMatch, List.any_cons, ih, Read.firstMatchIn_eq_any]
    cases permission.Capabilities.Capability.any (Read.isMatch state permission) <;> simp

theorem Read.found_iff_exists (state : projectPermissionResourceModel)
    (permissions : List GranteeCapability) :
    Read.found state permissions = true ↔
      ∃ permission ∈ permissions, ∃ capability ∈ permission.Capabilities.Capability,
        Read.isMatch state permission capability = true := by
  rw [Read.found_eq_any]
  simp [List.any_eq_true]

theorem Read.found_iff_user (state : projectPermissionResourceModel)
    (permissions : List GranteeCapability) (hu : state.UserID.IsNull = false) :
    Read.found state permissions = true ↔
      ∃ permission ∈ permissions,
        permission.User = some { ID := state.UserID.ValueString } ∧
        ∃ capability ∈ permission.Capabilities.Capability,
          capability.Name = state.CapabilityName.ValueString
            ∧ capability.Mode = state.CapabilityMode.ValueString := by
  rw [Read.found_iff_exists]
  constructor
  · rintro ⟨permission, hp, capability, hc, hm⟩
    unfold Read.isMatch at hm
    rw [hu] at hm
    refine ⟨permission, hp, ?_, capability, hc, ?_⟩
    · cases hU : permission.User with
      | none => simp [hU] at hm
      | some user =>
        cases user
        simp [hU] at hm
        simp [hm.2]
    · simp only [Bool.and_eq_true, decide_eq_true_eq] at hm
      exact hm.1
  · rintro ⟨permission, hp, hU, capability, hc, hname, hmode⟩
    refine ⟨permission, hp, capability, hc, ?_⟩
    unfold Read.isMatch
    simp [hu, hU, hname, hmode]

theorem Read.found_iff_group (state : projectPermissionResourceModel)
    (permissions : List GranteeCapability) (hu : state.UserID.IsNull = true) :
    Read.found state permissions = true ↔
      ∃ permission ∈ permissions,
        permission.Group = some { ID := state.GroupID.ValueString } ∧
        ∃ capability ∈ permission.Capabilities.Capability,
          capability.Name = state.CapabilityName.ValueString
            ∧ capability.Mode = state.CapabilityMode.ValueString := by
  rw [Read.found_iff_exists]
  constructor
  · rintro ⟨permission, hp, capability, hc, hm⟩
    unfold Read.isMatch at hm
    rw [hu] at hm
    refine ⟨permission, hp, ?_, capability, hc, ?_⟩
    · cases hG : permission.Group with
      | none => simp [hG] at hm
      | some group =>
        cases group
        simp [hG] at hm
        simp [hm.2]
    · simp only [Bool.and_eq_true, decide_eq_true_eq] at hm
      exact hm.1
  · rintro ⟨permission, hp, hG, capability, hc, hname, hmode⟩
    refine ⟨permission, hp, capability, hc, ?_⟩
    unfold Read.isMatch
    simp [hu, hG, hname, hmode]

theorem Read_of_fetched (c : Client) (state : projectPermissionResourceModel)
    (permissions : List GranteeCapability)
    (hc : (c.GetProjectPermissions state.ProjectID.ValueString).1 = .ok permissions) :
    (Read c state).1 =
      if Read.found state permissions then { Diagnostics := [], State := some state }
      else
        { Diagnostics :=
            [{ Summary := "Error Finding Permission in existing permissions",
               Format := "no permission in the existing permissions",
               Args := [] }],
          State := none } := by
  unfold Read
  revert hc
  cases hget : c.GetProjectPermissions state.ProjectID.ValueString with
  | mk result requests =>
    intro hc
    simp only at hc
    subst hc
    simp only
    split <;> rfl

end projectPermissionResource

end tableau

/-! ## The search of `Read` -/

namespace tableau

open projectPermissionResource

/-- C1: for a declared grant with exactly one of `group_id` / `user_id` set (not
null) and any fetched list, the search of `Read` reports found if and only if some
fetched set has the grantee of the declared kind with the declared id and holds a
capability whose name and mode both equal the declared ones. In particular nothing
is found in an empty list, nor when every capability list is empty, nor, for the
declared mode `"Allow"`, when every fetched mode is `"allow"`; and `Read` reports
the not-found error exactly when the search finds nothing. -/
theorem Read_found_iff_declared_grant (state : projectPermissionResourceModel)
    (permissions : List GranteeCapability)
    (h : (state.GroupID.IsNull = false ∧ state.UserID.IsNull = true) ∨
         (state.GroupID.IsNull = true ∧ state.UserID.IsNull = false)) :
    (Read.found state permissions = true ↔
      ∃ permission ∈ permissions,
        ((state.GroupID.IsNull = false
            ∧ permission.Group = some { ID := state.GroupID.ValueString }) ∨
         (state.UserID.IsNull = false
            ∧ permission.User = some { ID := state.UserID.ValueString })) ∧
        ∃ capability ∈ permission.Capabilities.Capability,
          capability.Name = state.CapabilityName.ValueString
            ∧ capability.Mode = state.CapabilityMode.ValueString)
    ∧ Read.found state [] = false
    ∧ ((∀ permission ∈ permissions, permission.Capabilities.Capability = []) →
        Read.found state permissions = false)
    ∧ (state.CapabilityMode.ValueString = "Allow" →
        (∀ permission ∈ permissions, ∀ capability ∈ permission.Capabilities.Capability,
          capability.Mode = "allow") →
        Read.found state permissions = false)
    ∧ (∀ c : Client, (c.GetProjectPermissions state.ProjectID.ValueString).1 = .ok permissions →
        (Read c state).1 =
          if Read.found state permissions then { Diagnostics := [], State := some state }
          else
            { Diagnostics :=
                [{ Summary := "Error Finding Permission in existing permissions",
                   Format := "no permission in the existing permissions",
                   Args := [] }],
              State := none }) := by
  refine ⟨?_, rfl, ?_, ?_, ?_⟩
  · rcases h with ⟨hg, hu⟩ | ⟨hg, hu⟩
    · rw [Read.found_iff_group state permissions hu]
      simp [hg, hu]
    · rw [Read.found_iff_user state permissions hu]
      simp [hg, hu]
  · intro hall
    rw [Read.found_eq_any]
    simp only [List.any_eq_false]
    intro permission hp
    simp [hall permission hp]
  · intro hmode hall
    rw [Read.found_eq_any]
    rw [List.any_eq_false]
    intro permission hp
    rw [Bool.not_eq_true, List.any_eq_false]
    intro capability hc
    unfold Read.isMatch
    have hne : capability.Mode ≠ state.CapabilityMode.ValueString := by
      rw [hall permission hp capability hc, hmode]
      decide
    simp [hne]
  · intro c hc
    exact Read_of_fetched c state permissions hc

/-- Scenario B of the spec: with `[(group g1, [(Read, Allow)])]` fetched, the grant
`(g1, Read, Allow)` is found, `(g1, Write, Allow)` and `(g2, Read, Allow)` are
not. -/
theorem Read_found_iff_declared_grant_witness :
    Read.found
        { ProjectID := .known "p1", GroupID := .known "g1", UserID := .null,
          CapabilityName := .known "Read", CapabilityMode := .known "Allow" }
        [{ Group := some { ID := "g1" }, User := none,
           Capabilities := { Capability := [{ Name := "Read", Mode := "Allow" }] } }] = true
    ∧ Read.found
        { ProjectID := .known "p1", GroupID := .known "g1", UserID := .null,
          CapabilityName := .known "Write", CapabilityMode := .known "Allow" }
        [{ Group := some { ID := "g1" }, User := none,
           Capabilities := { Capability := [{ Name := "Read", Mode := "Allow" }] } }] = false
    ∧ Read.found
        { ProjectID := .known "p1", GroupID := .known "g2", UserID := .null,
          CapabilityName := .known "Read", CapabilityMode := .known "Allow" }
        [{ Group := some { ID := "g1" }, User := none,
           Capabilities := { Capability := [{ Name := "Read", Mode := "Allow" }] } }] = false :=
  ⟨(Read_found_iff_declared_grant
      { ProjectID := .known "p1", GroupID := .known "g1", UserID := .null,
        CapabilityName := .known "Read", CapabilityMode := .known "Allow" }
      [{ Group := some { ID := "g1" }, User := none,
         Capabilities := { Capability := [{ Name := "Read", Mode := "Allow" }] } }]
      (Or.inl ⟨rfl, rfl⟩)).1.mpr
      ⟨_, List.mem_singleton.mpr rfl, Or.inl ⟨rfl, rfl⟩, _, List.mem_singleton.mpr rfl, rfl, rfl⟩,
    by decide, by decide⟩

end tableau

namespace tableau

namespace projectPermissionResource

theorem Read.found_congr_capabilities (state : projectPermissionResourceModel)
    (permissions other : List GranteeCapability)
    (hrel : List.Forall₂
      (fun a b : GranteeCapability => a.Group = b.Group ∧ a.User = b.User
        ∧ ∀ capability, capability ∈ a.Capabilities.Capability
            ↔ capability ∈ b.Capabilities.Capability)
      permissions other) :
    Read.found state other = Read.found state permissions := by
  rw [Read.found_eq_any, Read.found_eq_any]
  induction hrel with
  | nil => rfl
  | @cons a b l₁ l₂ hab _ ih =>
    rw [List.any_cons, List.any_cons, ih]
    congr 1
    rw [Bool.eq_iff_iff, List.any_eq_true, List.any_eq_true]
    have hmatch : ∀ capability,
        Read.isMatch state b capability = Read.isMatch state a capability := by
      intro capability
      unfold Read.isMatch
      rw [hab.1, hab.2.1]
    constructor
    · rintro ⟨capability, hc, hm⟩
      exact ⟨capability, (hab.2.2 capability).mpr hc, by rw [← hmatch]; exact hm⟩
    · rintro ⟨capability, hc, hm⟩
      exact ⟨capability, (hab.2.2 capability).mp hc, by rw [hmatch]; exact hm⟩

end projectPermissionResource

end tableau

namespace tableau

open projectPermissionResource

/-- C9: the result of the search of `Read` is a fact about membership. It is
unchanged when the fetched sets are reordered, when the capabilities inside each
set are reordered, when sets are repeated or dropped as long as the same sets
occur, and when capabilities inside a set are repeated likewise; and it equals
the result of the search that stops at the first match. -/
theorem Read_found_set_membership (state : projectPermissionResourceModel)
    (permissions : List GranteeCapability) :
    (∀ other : List GranteeCapability, permissions.Perm other →
        Read.found state other = Read.found state permissions)
    ∧ (∀ other : List GranteeCapability,
        List.Forall₂
          (fun a b : GranteeCapability => a.Group = b.Group ∧ a.User = b.User
            ∧ a.Capabilities.Capability.Perm b.Capabilities.Capability)
          permissions other →
        Read.found state other = Read.found state permissions)
    ∧ (∀ other : List GranteeCapability,
        (∀ permission, permission ∈ other ↔ permission ∈ permissions) →
        Read.found state other = Read.found state permissions)
    ∧ (∀ other : List GranteeCapability,
        List.Forall₂
          (fun a b : GranteeCapability => a.Group = b.Group ∧ a.User = b.User
            ∧ ∀ capability, capability ∈ a.Capabilities.Capability
                ↔ capability ∈ b.Capabilities.Capability)
          permissions other →
        Read.found state other = Read.found state permissions)
    ∧ Read.found state permissions = Read.firstMatch state permissions := by
  have hsets : ∀ other : List GranteeCapability,
      (∀ permission, permission ∈ other ↔ permission ∈ permissions) →
      Read.found state other = Read.found state permissions := by
    intro other hmem
    rw [Bool.eq_iff_iff, Read.found_iff_exists, Read.found_iff_exists]
    constructor
    · rintro ⟨permission, hp, rest⟩
      exact ⟨permission, (hmem permission).mp hp, rest⟩
    · rintro ⟨permission, hp, rest⟩
      exact ⟨permission, (hmem permission).mpr hp, rest⟩
  have hcaps := Read.found_congr_capabilities state permissions
  refine ⟨?_, ?_, hsets, hcaps, ?_⟩
  · intro other hperm
    exact hsets other fun permission => hperm.mem_iff.symm
  · intro other hrel
    apply hcaps other
    exact hrel.imp fun a b hab => ⟨hab.1, hab.2.1, fun capability => hab.2.2.mem_iff⟩
  · rw [Read.found_eq_any, Read.firstMatch_eq_any]

/-- The grant `(g1, Read, Allow)` is found in two fetched sets whichever comes
first. -/
theorem Read_found_set_membership_witness :
    Read.found
        { ProjectID := .known "p1", GroupID := .known "g1", UserID := .null,
          CapabilityName := .known "Read", CapabilityMode := .known "Allow" }
        [{ Group := some { ID := "g1" }, User := none,
           Capabilities := { Capability := [{ Name := "Write", Mode := "Deny" },
                                            { Name := "Read", Mode := "Allow" }] } },
         { Group := none, User := some { ID := "u1" },
           Capabilities := { Capability := [{ Name := "Read", Mode := "Allow" }] } }]
      = Read.found
        { ProjectID := .known "p1", GroupID := .known "g1", UserID := .null,
          CapabilityName := .known "Read", CapabilityMode := .known "Allow" }
        [{ Group := none, User := some { ID := "u1" },
           Capabilities := { Capability := [{ Name := "Read", Mode := "Allow" }] } },
         { Group := some { ID := "g1" }, User := none,
           Capabilities := { Capability := [{ Name := "Write", Mode := "Deny" },
                                            { Name := "Read", Mode := "Allow" }] } }] :=
  (Read_found_set_membership _ _).1 _ (List.Perm.swap _ _ [])

end tableau

/-! ## Import identifiers -/

namespace strings

theorem Split_five (a b c d e : String) (ha : ':' ∉ a.data) (hb : ':' ∉ b.data)
    (hc : ':' ∉ c.data) (hd : ':' ∉ d.data) (he : ':' ∉ e.data) :
    Split (a ++ ":" ++ b ++ ":" ++ c ++ ":" ++ d ++ ":" ++ e) ':' = [a, b, c, d, e] := by
  have hsep : (":" : String).data = [':'] := rfl
  simp only [Split, String.data_append, hsep, List.append_assoc, List.singleton_append,
    List.cons_append, List.nil_append]
  rw [splitChars_append_sep _ _ _ ha, splitChars_append_sep _ _ _ hb,
    splitChars_append_sep _ _ _ hc, splitChars_append_sep _ _ _ hd,
    splitChars_of_not_mem _ _ he]
  rfl

end strings

namespace tableau

open projectPermissionResource

theorem ImportState_of_five (ID part0 part1 part2 part3 part4 : String)
    (h : strings.Split ID ':' = [part0, part1, part2, part3, part4]) :
    ImportState ID =
      { Diagnostics := [],
        State :=
          { ProjectID := .known part0,
            GroupID := if part1 = "" then .null else .known part1,
            UserID := if part2 = "" then .null else .known part2,
            CapabilityName := .known part3,
            CapabilityMode := .known part4 } } := by
  unfold ImportState
  rw [h]
  by_cases h1 : part1 = "" <;> by_cases h2 : part2 = "" <;> simp [h1, h2, emptyState]

theorem ImportState_of_not_five (ID : String) (h : (strings.Split ID ':').length ≠ 5) :
    ImportState ID =
      { Diagnostics :=
          [{ Summary := "Unexpected Import Identifier",
             Format := "Expected import identifier with format: `project_id:group_id:user_id:capability_name:capability_mode`. Got: %q",
             Args := [ID] }],
        State := emptyState } := by
  unfold ImportState
  split
  · rename_i heq
    rw [heq] at h
    simp at h
  · rfl

theorem length_five_cases (l : List String) (h : l.length = 5) :
    ∃ part0 part1 part2 part3 part4, l = [part0, part1, part2, part3, part4] := by
  match l, h with
  | [part0, part1, part2, part3, part4], _ => exact ⟨_, _, _, _, _, rfl⟩

/-- C2: `ImportState` fails with the error "Unexpected Import Identifier" exactly
when splitting the identifier on `':'` does not give exactly 5 fields, that is
when the identifier does not hold exactly 4 colons; when it fails it leaves every
attribute of the state unset, and otherwise it reports no diagnostic. -/
theorem ImportState_error_iff (ID : String) :
    ((ImportState ID).Diagnostics =
        [{ Summary := "Unexpected Import Identifier",
           Format := "Expected import identifier with format: `project_id:group_id:user_id:capability_name:capability_mode`. Got: %q",
           Args := [ID] }]
      ↔ (strings.Split ID ':').length ≠ 5)
    ∧ ((strings.Split ID ':').length ≠ 5 → (ImportState ID).State = emptyState)
    ∧ ((strings.Split ID ':').length = 5 → (ImportState ID).Diagnostics = [])
    ∧ (strings.Split ID ':').length = ID.data.count ':' + 1 := by
  refine ⟨⟨?_, ?_⟩, ?_, ?_, strings.Split_length ID ':'⟩
  · intro hdiag hlen
    obtain ⟨part0, part1, part2, part3, part4, hparts⟩ := length_five_cases _ hlen
    rw [ImportState_of_five ID _ _ _ _ _ hparts] at hdiag
    simp at hdiag
  · intro hlen
    rw [ImportState_of_not_five ID hlen]
  · intro hlen
    rw [ImportState_of_not_five ID hlen]
  · intro hlen
    obtain ⟨part0, part1, part2, part3, part4, hparts⟩ := length_five_cases _ hlen
    rw [ImportState_of_five ID _ _ _ _ _ hparts]

/-- An identifier of four fields fails and sets nothing. -/
theorem ImportState_error_iff_witness :
    (strings.Split "p1:g1:Read:Allow" ':').length ≠ 5
    ∧ (ImportState "p1:g1:Read:Allow").State = emptyState
    ∧ (ImportState "p1:g1::Read:Allow").Diagnostics = [] :=
  ⟨by decide,
    (ImportState_error_iff "p1:g1:Read:Allow").2.1 (by decide),
    (ImportState_error_iff "p1:g1::Read:Allow").2.2.1 (by decide)⟩

/-- C4: for an identifier that splits on `':'` into exactly 5 fields,
`ImportState` reports no diagnostic and sets `project_id` to field 0,
`capability_name` to field 3 and `capability_mode` to field 4 whatever they are,
`group_id` to field 1 only if that field is not empty and `user_id` to field 2
only if that field is not empty, leaving the attribute null otherwise; so
`"p1:g1::Read:Allow"` gives project p1, group g1, no user, capability Read, mode
Allow, and names outside the enumerations are taken as they are. -/
theorem ImportState_sets_fields (ID part0 part1 part2 part3 part4 : String)
    (h : strings.Split ID ':' = [part0, part1, part2, part3, part4]) :
    ImportState ID =
        { Diagnostics := [],
          State :=
            { ProjectID := .known part0,
              GroupID := if part1 = "" then .null else .known part1,
              UserID := if part2 = "" then .null else .known part2,
              CapabilityName := .known part3,
              CapabilityMode := .known part4 } }
    ∧ ImportState "p1:g1::Read:Allow" =
        { Diagnostics := [],
          State :=
            { ProjectID := .known "p1", GroupID := .known "g1", UserID := .null,
              CapabilityName := .known "Read", CapabilityMode := .known "Allow" } }
    ∧ ImportState "p1::u1:Own:maybe" =
        { Diagnostics := [],
          State :=
            { ProjectID := .known "p1", GroupID := .null, UserID := .known "u1",
              CapabilityName := .known "Own", CapabilityMode := .known "maybe" } } :=
  ⟨ImportState_of_five ID part0 part1 part2 part3 part4 h, by decide, by decide⟩

/-- The identifier `":g1::Read:"` has five fields, two of them empty. -/
theorem ImportState_sets_fields_witness :
    strings.Split ":g1::Read:" ':' = ["", "g1", "", "Read", ""]
    ∧ ImportState ":g1::Read:" =
        { Diagnostics := [],
          State :=
            { ProjectID := .known "", GroupID := .known "g1", UserID := .null,
              CapabilityName := .known "Read", CapabilityMode := .known "" } } :=
  ⟨by decide, (ImportState_sets_fields ":g1::Read:" "" "g1" "" "Read" "" (by decide)).1⟩

end tableau

namespace tableau

open projectPermissionResource

/-- C3 fails as stated: the group-only grant of project `"a:b"` is encoded as
`"a:b:g1::Read:Allow"`, which has six fields, so that `ImportState` fails on it
and gives back no attribute of the grant. -/
theorem ImportState_encode_colon_in_project :
    encode
        { ProjectID := .known "a:b", GroupID := .known "g1", UserID := .null,
          CapabilityName := .known "Read", CapabilityMode := .known "Allow" }
      = "a:b:g1::Read:Allow"
    ∧ ImportState
        (encode
          { ProjectID := .known "a:b", GroupID := .known "g1", UserID := .null,
            CapabilityName := .known "Read", CapabilityMode := .known "Allow" })
      = { Diagnostics :=
            [{ Summary := "Unexpected Import Identifier",
               Format := "Expected import identifier with format: `project_id:group_id:user_id:capability_name:capability_mode`. Got: %q",
               Args := ["a:b:g1::Read:Allow"] }],
          State := emptyState }
    ∧ (ImportState
        (encode
          { ProjectID := .known "a:b", GroupID := .known "g1", UserID := .null,
            CapabilityName := .known "Read", CapabilityMode := .known "Allow" })).State
      ≠ { ProjectID := .known "a:b", GroupID := .known "g1", UserID := .null,
          CapabilityName := .known "Read", CapabilityMode := .known "Allow" } := by
  decide

/-- C3, as it holds: for a grant whose project id, grantee id, capability name
and capability mode hold no colon and whose grantee id is not empty, be the
grantee the group (with `user_id` null) or the user (with `group_id` null),
`ImportState` on the encoded identifier reports no diagnostic and gives back
exactly the grant. -/
theorem ImportState_encode_roundtrip
    (projectID granteeID capabilityName capabilityMode : String)
    (hp : ':' ∉ projectID.data) (hi : ':' ∉ granteeID.data)
    (hn : ':' ∉ capabilityName.data) (hm : ':' ∉ capabilityMode.data)
    (hne : granteeID ≠ "") :
    ImportState
        (encode
          { ProjectID := .known projectID, GroupID := .known granteeID, UserID := .null,
            CapabilityName := .known capabilityName, CapabilityMode := .known capabilityMode })
      = { Diagnostics := [],
          State :=
            { ProjectID := .known projectID, GroupID := .known granteeID, UserID := .null,
              CapabilityName := .known capabilityName,
              CapabilityMode := .known capabilityMode } }
    ∧ ImportState
        (encode
          { ProjectID := .known projectID, GroupID := .null, UserID := .known granteeID,
            CapabilityName := .known capabilityName, CapabilityMode := .known capabilityMode })
      = { Diagnostics := [],
          State :=
            { ProjectID := .known projectID, GroupID := .null, UserID := .known granteeID,
              CapabilityName := .known capabilityName,
              CapabilityMode := .known capabilityMode } } := by
  have hempty : ':' ∉ ("" : String).data := by simp
  constructor
  · have hsplit := strings.Split_five _ _ _ _ _ hp hi hempty hn hm
    rw [ImportState_of_five _ projectID granteeID "" capabilityName capabilityMode
      (by simpa only [encode, StringValue.ValueString] using hsplit)]
    simp [hne]
  · have hsplit := strings.Split_five _ _ _ _ _ hp hempty hi hn hm
    rw [ImportState_of_five _ projectID "" granteeID capabilityName capabilityMode
      (by simpa only [encode, StringValue.ValueString] using hsplit)]
    simp [hne]

/-- The grant of scenario C comes back from its identifier. -/
theorem ImportState_encode_roundtrip_witness :
    ImportState
        (encode
          { ProjectID := .known "p1", GroupID := .known "g1", UserID := .null,
            CapabilityName := .known "Read", CapabilityMode := .known "Allow" })
      = { Diagnostics := [],
          State :=
            { ProjectID := .known "p1", GroupID := .known "g1", UserID := .null,
              CapabilityName := .known "Read", CapabilityMode := .known "Allow" } } :=
  (ImportState_encode_roundtrip "p1" "g1" "Read" "Allow"
    (by decide) (by decide) (by decide) (by decide) (by decide)).1

/-- C8 fails as stated: `"p1:g1:u1:Read:Allow"` is imported without error with
both `group_id` and `user_id` set, and `Read` does not reject that state: when the
fetched list holds `(Read, Allow)` for the user u1 it reports no error and keeps
the state. -/
theorem Read_accepts_both_grantees :
    ImportState "p1:g1:u1:Read:Allow" =
        { Diagnostics := [],
          State :=
            { ProjectID := .known "p1", GroupID := .known "g1", UserID := .known "u1",
              CapabilityName := .known "Read", CapabilityMode := .known "Allow" } }
    ∧ (Read
        (answeringClient
          [{ Group := none, User := some { ID := "u1" },
             Capabilities := { Capability := [{ Name := "Read", Mode := "Allow" }] } }])
        (ImportState "p1:g1:u1:Read:Allow").State).1
      = { Diagnostics := [],
          State := some
            { ProjectID := .known "p1", GroupID := .known "g1", UserID := .known "u1",
              CapabilityName := .known "Read", CapabilityMode := .known "Allow" } } := by
  decide

/-- C8, as it holds: an identifier of five fields whose group and user fields are
both non-empty is imported without error, with both `group_id` and `user_id`
set. `Read` has no check of grantee exclusivity: on that state it searches for the
user only, so that it finds the grant exactly when some fetched set has the user
of field 2 and a capability with the name of field 3 and the mode of field 4,
whatever `group_id` is, and once the list is fetched it reports the not-found
error exactly when that search finds nothing. -/
theorem ImportState_both_grantees_then_Read (ID part0 part1 part2 part3 part4 : String)
    (h : strings.Split ID ':' = [part0, part1, part2, part3, part4])
    (h1 : part1 ≠ "") (h2 : part2 ≠ "") :
    ImportState ID =
        { Diagnostics := [],
          State :=
            { ProjectID := .known part0, GroupID := .known part1, UserID := .known part2,
              CapabilityName := .known part3, CapabilityMode := .known part4 } }
    ∧ (∀ permissions : List GranteeCapability,
        Read.found (ImportState ID).State permissions = true ↔
          ∃ permission ∈ permissions,
            permission.User = some { ID := part2 } ∧
            ∃ capability ∈ permission.Capabilities.Capability,
              capability.Name = part3 ∧ capability.Mode = part4)
    ∧ (∀ (c : Client) (permissions : List GranteeCapability),
        (c.GetProjectPermissions part0).1 = .ok permissions →
        (Read c (ImportState ID).State).1 =
          if Read.found (ImportState ID).State permissions then
            { Diagnostics := [], State := some (ImportState ID).State }
          else
            { Diagnostics :=
                [{ Summary := "Error Finding Permission in existing permissions",
                   Format := "no permission in the existing permissions",
                   Args := [] }],
              State := none }) := by
  have himport : ImportState ID =
      { Diagnostics := [],
        State :=
          { ProjectID := .known part0, GroupID := .known part1, UserID := .known part2,
            CapabilityName := .known part3, CapabilityMode := .known part4 } } := by
    rw [ImportState_of_five ID _ _ _ _ _ h]
    simp [h1, h2]
  refine ⟨himport, ?_, ?_⟩
  · intro permissions
    rw [himport]
    exact Read.found_iff_user _ permissions rfl
  · intro c permissions hc
    rw [himport]
    exact Read_of_fetched c _ permissions hc

/-- The identifier `"p1:g1:u1:Read:Allow"` is imported with both grantees, and the
search of `Read` on it finds the user grant. -/
theorem ImportState_both_grantees_then_Read_witness :
    strings.Split "p1:g1:u1:Read:Allow" ':' = ["p1", "g1", "u1", "Read", "Allow"]
    ∧ ImportState "p1:g1:u1:Read:Allow" =
        { Diagnostics := [],
          State :=
            { ProjectID := .known "p1", GroupID := .known "g1", UserID := .known "u1",
              CapabilityName := .known "Read", CapabilityMode := .known "Allow" } } :=
  ⟨by decide,
    (ImportState_both_grantees_then_Read "p1:g1:u1:Read:Allow" "p1" "g1" "u1" "Read" "Allow"
      (by decide) (by decide) (by decide)).1⟩

end tableau

/-! ## Requests of `Create` and `Delete` -/

namespace tableau

namespace projectPermissionResource

theorem AddProjectPermission_of_accepted (c : Client) (p : ProjectPermission)
    (h : c.newRequestError
        { Method := "PUT",
          URL := c.ApiUrl ++ "/projects/" ++ p.ProjectID ++ "/permissions",
          Body := some (Client.AddProjectPermission.reqBody p) } = none) :
    c.AddProjectPermission p =
      ((match c.doRequest
            { Method := "PUT",
              URL := c.ApiUrl ++ "/projects/" ++ p.ProjectID ++ "/permissions",
              Body := some (Client.AddProjectPermission.reqBody p) } with
        | .error err => some err
        | .ok _ => none),
       [{ Method := "PUT",
          URL := c.ApiUrl ++ "/projects/" ++ p.ProjectID ++ "/permissions",
          Body := some (Client.AddProjectPermission.reqBody p) }]) := by
  unfold Client.AddProjectPermission
  simp only [h]
  cases c.doRequest _ <;> rfl

theorem AddProjectPermission_of_rejected (c : Client) (p : ProjectPermission) (err : String)
    (h : c.newRequestError
        { Method := "PUT",
          URL := c.ApiUrl ++ "/projects/" ++ p.ProjectID ++ "/permissions",
          Body := some (Client.AddProjectPermission.reqBody p) } = some err) :
    c.AddProjectPermission p = (some err, []) := by
  unfold Client.AddProjectPermission
  simp only [h]

theorem DeleteProjectPermission_of_accepted (c : Client) (p : ProjectPermission)
    (h : c.newRequestError
        { Method := "DELETE", URL := Client.DeleteProjectPermission.url c p, Body := none }
      = none) :
    c.DeleteProjectPermission p =
      ((match c.doRequest
            { Method := "DELETE", URL := Client.DeleteProjectPermission.url c p,
              Body := none } with
        | .error err => some err
        | .ok _ => none),
       [{ Method := "DELETE", URL := Client.DeleteProjectPermission.url c p, Body := none }]) := by
  unfold Client.DeleteProjectPermission
  simp only [h]
  cases c.doRequest _ <;> rfl

theorem DeleteProjectPermission_of_rejected (c : Client) (p : ProjectPermission) (err : String)
    (h : c.newRequestError
        { Method := "DELETE", URL := Client.DeleteProjectPermission.url c p, Body := none }
      = some err) :
    c.DeleteProjectPermission p = (some err, []) := by
  unfold Client.DeleteProjectPermission
  simp only [h]

theorem reqBody_entry (p : ProjectPermission) :
    Client.AddProjectPermission.reqBody p =
      { Permissions := { Project := none, GranteeCapabilities :=
          [{ Group := if p.GroupID = "" then none else some { ID := p.GroupID },
             User := if p.GroupID = "" then some { ID := p.UserID } else none,
             Capabilities :=
               { Capability := [{ Name := p.CapabilityName, Mode := p.CapabilityMode }] } }] } } := by
  unfold Client.AddProjectPermission.reqBody
  by_cases hg : p.GroupID = "" <;> simp [hg]

end projectPermissionResource

open projectPermissionResource

/-- C6: for a grant with exactly one of `GroupID` / `UserID` non-empty, the body
that `AddProjectPermission` builds holds exactly one grantee-capabilities entry;
that entry names the group and no user for a group grant, the user and no group
for a user grant, and its capability list is the single capability of the
declared name and mode. That body is the one of the PUT request on the
permissions of the project: when `http.NewRequest` accepts the request it is the
only request handed to `doRequest`, whose error, if any, is the result; when
`http.NewRequest` rejects it no request is made and its error is the result. -/
theorem AddProjectPermission_body (p : ProjectPermission)
    (h : (p.GroupID ≠ "" ∧ p.UserID = "") ∨ (p.GroupID = "" ∧ p.UserID ≠ "")) :
    ∃ gc : GranteeCapability,
      Client.AddProjectPermission.reqBody p =
          { Permissions := { Project := none, GranteeCapabilities := [gc] } }
        ∧ gc.Capabilities.Capability = [{ Name := p.CapabilityName, Mode := p.CapabilityMode }]
        ∧ (p.GroupID ≠ "" → gc.Group = some { ID := p.GroupID } ∧ gc.User = none)
        ∧ (p.UserID ≠ "" → gc.User = some { ID := p.UserID } ∧ gc.Group = none)
        ∧ (∀ (c : Client) (req : Request),
            req = { Method := "PUT",
                    URL := c.ApiUrl ++ "/projects/" ++ p.ProjectID ++ "/permissions",
                    Body := some
                      { Permissions := { Project := none, GranteeCapabilities := [gc] } } } →
            (c.newRequestError req = none →
              c.AddProjectPermission p =
                ((match c.doRequest req with
                  | .error err => some err
                  | .ok _ => none), [req]))
            ∧ (∀ err, c.newRequestError req = some err →
                c.AddProjectPermission p = (some err, []))) := by
  rcases h with ⟨hg, hu⟩ | ⟨hg, hu⟩
  · refine ⟨{ Group := some { ID := p.GroupID }, User := none,
              Capabilities :=
                { Capability := [{ Name := p.CapabilityName, Mode := p.CapabilityMode }] } },
      ?_, rfl, fun _ => ⟨rfl, rfl⟩, fun hne => absurd hu hne, ?_⟩
    · rw [reqBody_entry]
      simp only [hg, if_false]
    · intro c req hreq
      have hbody : Client.AddProjectPermission.reqBody p =
          { Permissions := { Project := none, GranteeCapabilities :=
              [{ Group := some { ID := p.GroupID }, User := none,
                 Capabilities :=
                   { Capability :=
                       [{ Name := p.CapabilityName, Mode := p.CapabilityMode }] } }] } } := by
        rw [reqBody_entry]
        simp only [hg, if_false]
      rw [← hbody] at hreq
      subst hreq
      exact ⟨AddProjectPermission_of_accepted c p,
        fun err => AddProjectPermission_of_rejected c p err⟩
  · refine ⟨{ Group := none, User := some { ID := p.UserID },
              Capabilities :=
                { Capability := [{ Name := p.CapabilityName, Mode := p.CapabilityMode }] } },
      ?_, rfl, fun hne => absurd hg hne, fun _ => ⟨rfl, rfl⟩, ?_⟩
    · rw [reqBody_entry]
      simp only [hg, if_true]
    · intro c req hreq
      have hbody : Client.AddProjectPermission.reqBody p =
          { Permissions := { Project := none, GranteeCapabilities :=
              [{ Group := none, User := some { ID := p.UserID },
                 Capabilities :=
                   { Capability :=
                       [{ Name := p.CapabilityName, Mode := p.CapabilityMode }] } }] } } := by
        rw [reqBody_entry]
        simp only [hg, if_true]
      rw [← hbody] at hreq
      subst hreq
      exact ⟨AddProjectPermission_of_accepted c p,
        fun err => AddProjectPermission_of_rejected c p err⟩

/-- Scenario A of the spec: the body of the upsert of `(p1, group g1, Read,
Allow)` is the single entry of group g1 with the single capability. -/
theorem AddProjectPermission_body_witness :
    Client.AddProjectPermission.reqBody
        { ProjectID := "p1", GroupID := "g1", UserID := "",
          CapabilityName := "Read", CapabilityMode := "Allow" }
      = { Permissions := { Project := none, GranteeCapabilities :=
            [{ Group := some { ID := "g1" }, User := none,
               Capabilities := { Capability := [{ Name := "Read", Mode := "Allow" }] } }] } } := by
  obtain ⟨gc, hbody, hcaps, hgroup, _, _⟩ := AddProjectPermission_body
    { ProjectID := "p1", GroupID := "g1", UserID := "",
      CapabilityName := "Read", CapabilityMode := "Allow" }
    (Or.inl ⟨by decide, rfl⟩)
  rw [hbody]
  obtain ⟨hG, hU⟩ := hgroup (by decide)
  cases gc with
  | mk Group User Capabilities =>
    cases Capabilities
    simp only at hcaps hG hU
    subst hcaps hG hU
    rfl

end tableau

namespace tableau

namespace projectPermissionResource

theorem Create_requests_of_accepted (c : Client) (plan : projectPermissionResourceModel)
    (h : c.newRequestError
        { Method := "PUT",
          URL := c.ApiUrl ++ "/projects/" ++ plan.ProjectID.ValueString ++ "/permissions",
          Body := some (Client.AddProjectPermission.reqBody
            { ProjectID := plan.ProjectID.ValueString,
              GroupID := plan.GroupID.ValueString,
              UserID := plan.UserID.ValueString,
              CapabilityName := plan.CapabilityName.ValueString,
              CapabilityMode := plan.CapabilityMode.ValueString }) } = none) :
    (Create c plan).2 =
      [{ Method := "PUT",
         URL := c.ApiUrl ++ "/projects/" ++ plan.ProjectID.ValueString ++ "/permissions",
         Body := some (Client.AddProjectPermission.reqBody
           { ProjectID := plan.ProjectID.ValueString,
             GroupID := plan.GroupID.ValueString,
             UserID := plan.UserID.ValueString,
             CapabilityName := plan.CapabilityName.ValueString,
             CapabilityMode := plan.CapabilityMode.ValueString }) }] := by
  unfold Create
  simp only
  rw [AddProjectPermission_of_accepted c _ h]
  cases c.doRequest _ <;> rfl

end projectPermissionResource

open projectPermissionResource

/-- C10, as it holds: when exactly one of `group_id` and `user_id` is set (the
other null) and a set `group_id` is not the empty string, the search of `Read`
over the grantee-capabilities list of the body that `AddProjectPermission` builds
for the grant, as `Create` passes it, reports found; and that body is the one of
the PUT request `Create` hands to `doRequest` when `http.NewRequest` accepts
it. -/
theorem Read_found_in_Create_body (plan : projectPermissionResourceModel)
    (h : (plan.GroupID.IsNull = false ∧ plan.GroupID.ValueString ≠ ""
            ∧ plan.UserID.IsNull = true) ∨
         (plan.GroupID.IsNull = true ∧ plan.UserID.IsNull = false)) :
    Read.found plan
        (Client.AddProjectPermission.reqBody
          { ProjectID := plan.ProjectID.ValueString,
            GroupID := plan.GroupID.ValueString,
            UserID := plan.UserID.ValueString,
            CapabilityName := plan.CapabilityName.ValueString,
            CapabilityMode := plan.CapabilityMode.ValueString }).Permissions.GranteeCapabilities
      = true
    ∧ (∀ c : Client,
        c.newRequestError
            { Method := "PUT",
              URL := c.ApiUrl ++ "/projects/" ++ plan.ProjectID.ValueString ++ "/permissions",
              Body := some (Client.AddProjectPermission.reqBody
                { ProjectID := plan.ProjectID.ValueString,
                  GroupID := plan.GroupID.ValueString,
                  UserID := plan.UserID.ValueString,
                  CapabilityName := plan.CapabilityName.ValueString,
                  CapabilityMode := plan.CapabilityMode.ValueString }) } = none →
        (Create c plan).2 =
          [{ Method := "PUT",
             URL := c.ApiUrl ++ "/projects/" ++ plan.ProjectID.ValueString ++ "/permissions",
             Body := some (Client.AddProjectPermission.reqBody
               { ProjectID := plan.ProjectID.ValueString,
                 GroupID := plan.GroupID.ValueString,
                 UserID := plan.UserID.ValueString,
                 CapabilityName := plan.CapabilityName.ValueString,
                 CapabilityMode := plan.CapabilityMode.ValueString }) }]) := by
  refine ⟨?_, fun c hc => Create_requests_of_accepted c plan hc⟩
  rw [Read.found_eq_any]
  unfold Client.AddProjectPermission.reqBody
  rcases h with ⟨_, hne, hu⟩ | ⟨hg, hu⟩
  · simp [Read.isMatch, hne, hu]
  · have hempty : plan.GroupID.ValueString = "" := by
      cases hG : plan.GroupID <;> simp_all [StringValue.IsNull, StringValue.ValueString]
    simp [Read.isMatch, hempty, hu]

/-- The group grant of scenario A and a user grant are found in the bodies built
for them. -/
theorem Read_found_in_Create_body_witness :
    Read.found
        { ProjectID := .known "p1", GroupID := .known "g1", UserID := .null,
          CapabilityName := .known "Read", CapabilityMode := .known "Allow" }
        (Client.AddProjectPermission.reqBody
          { ProjectID := "p1", GroupID := "g1", UserID := "",
            CapabilityName := "Read", CapabilityMode := "Allow" }).Permissions.GranteeCapabilities
      = true
    ∧ Read.found
        { ProjectID := .known "p1", GroupID := .null, UserID := .known "u1",
          CapabilityName := .known "Write", CapabilityMode := .known "Deny" }
        (Client.AddProjectPermission.reqBody
          { ProjectID := "p1", GroupID := "", UserID := "u1",
            CapabilityName := "Write", CapabilityMode := "Deny" }).Permissions.GranteeCapabilities
      = true :=
  ⟨(Read_found_in_Create_body
      { ProjectID := .known "p1", GroupID := .known "g1", UserID := .null,
        CapabilityName := .known "Read", CapabilityMode := .known "Allow" }
      (Or.inl ⟨rfl, by decide, rfl⟩)).1,
   (Read_found_in_Create_body
      { ProjectID := .known "p1", GroupID := .null, UserID := .known "u1",
        CapabilityName := .known "Write", CapabilityMode := .known "Deny" }
      (Or.inr ⟨rfl, rfl⟩)).1⟩

/-- C10 fails as stated: with `group_id` set to the empty string and `user_id`
null, exactly one of the two is set, the body built for the grant, which `Create`
sends, holds a user entry with the empty id, and the search of `Read`, which
looks for a group, does not find the grant in it. -/
theorem Read_not_found_in_Create_body_empty_group :
    (({ ProjectID := .known "p1", GroupID := .known "", UserID := .null,
        CapabilityName := .known "Read", CapabilityMode := .known "Allow" } :
        projectPermissionResourceModel).GroupID.IsNull = false)
    ∧ (({ ProjectID := .known "p1", GroupID := .known "", UserID := .null,
          CapabilityName := .known "Read", CapabilityMode := .known "Allow" } :
          projectPermissionResourceModel).UserID.IsNull = true)
    ∧ Client.AddProjectPermission.reqBody
        { ProjectID := "p1", GroupID := "", UserID := "",
          CapabilityName := "Read", CapabilityMode := "Allow" }
      = { Permissions := { Project := none, GranteeCapabilities :=
            [{ Group := none, User := some { ID := "" },
               Capabilities := { Capability := [{ Name := "Read", Mode := "Allow" }] } }] } }
    ∧ (Create (answeringClient [])
        { ProjectID := .known "p1", GroupID := .known "", UserID := .null,
          CapabilityName := .known "Read", CapabilityMode := .known "Allow" }).2
      = [{ Method := "PUT",
           URL := "https://tableau.example/api/3.19/sites/s1/projects/p1/permissions",
           Body := some { Permissions := { Project := none, GranteeCapabilities :=
             [{ Group := none, User := some { ID := "" },
                Capabilities := { Capability := [{ Name := "Read", Mode := "Allow" }] } }] } } }]
    ∧ Read.found
        { ProjectID := .known "p1", GroupID := .known "", UserID := .null,
          CapabilityName := .known "Read", CapabilityMode := .known "Allow" }
        [{ Group := none, User := some { ID := "" },
           Capabilities := { Capability := [{ Name := "Read", Mode := "Allow" }] } }] = false := by
  decide

/-- C7 fails as stated: for the group grant of project `"%zz"` the URL of the
removal holds an invalid percent escape, `http.NewRequest` rejects it, and
`Delete` reports the error without any request made. -/
theorem Delete_no_request_on_rejected_URL :
    Client.DeleteProjectPermission.url escapeCheckingClient
        { ProjectID := "%zz", GroupID := "g1", UserID := "",
          CapabilityName := "Read", CapabilityMode := "Allow" }
      = "https://tableau.example/api/3.19/sites/s1/projects/%zz/permissions/groups/g1/Read/Allow"
    ∧ Delete escapeCheckingClient
        { ProjectID := .known "%zz", GroupID := .known "g1", UserID := .null,
          CapabilityName := .known "Read", CapabilityMode := .known "Allow" }
      = ({ Diagnostics :=
             [{ Summary := "Error Deleting Tableau Project permissions",
                Format := "Could not project permissions, unexpected error: %s",
                Args := ["invalid URL escape"] }],
           State := none }, []) := by
  decide

/-- C7, as it holds: for every grant, `Delete` builds one URL from the fields of
the grant, `<api>/projects/<projectID>/permissions/groups/<groupID>/<name>/<mode>`
when `group_id` is non-empty and
`<api>/projects/<projectID>/permissions/users/<userID>/<name>/<mode>` otherwise.
When `http.NewRequest` accepts it, `Delete` hands exactly one request to
`doRequest`, the DELETE without body on that URL, and reports the error of
`doRequest` if there is one; when `http.NewRequest` rejects it, `Delete` makes no
request and reports that error. In no case does it make a GET request, or more
than one request. -/
theorem Delete_requests (c : Client) (state : projectPermissionResourceModel) (req : Request)
    (hreq : req =
      { Method := "DELETE",
        URL :=
          if state.GroupID.ValueString ≠ "" then
            c.ApiUrl ++ "/projects/" ++ state.ProjectID.ValueString
              ++ "/permissions/groups/" ++ state.GroupID.ValueString ++ "/"
              ++ state.CapabilityName.ValueString ++ "/" ++ state.CapabilityMode.ValueString
          else
            c.ApiUrl ++ "/projects/" ++ state.ProjectID.ValueString
              ++ "/permissions/users/" ++ state.UserID.ValueString ++ "/"
              ++ state.CapabilityName.ValueString ++ "/" ++ state.CapabilityMode.ValueString,
        Body := none }) :
    (c.newRequestError req = none →
      Delete c state =
        ((match c.doRequest req with
          | .error err =>
            { Diagnostics :=
                [{ Summary := "Error Deleting Tableau Project permissions",
                   Format := "Could not project permissions, unexpected error: %s",
                   Args := [err] }],
              State := none }
          | .ok _ => { Diagnostics := [], State := none }), [req]))
    ∧ (∀ err, c.newRequestError req = some err →
        Delete c state =
          ({ Diagnostics :=
               [{ Summary := "Error Deleting Tableau Project permissions",
                  Format := "Could not project permissions, unexpected error: %s",
                  Args := [err] }],
             State := none }, []))
    ∧ (∀ request ∈ (Delete c state).2, request.Method ≠ "GET")
    ∧ (Delete c state).2.length ≤ 1 := by
  have hurl : req =
      { Method := "DELETE",
        URL := Client.DeleteProjectPermission.url c
          { ProjectID := state.ProjectID.ValueString,
            GroupID := state.GroupID.ValueString,
            UserID := state.UserID.ValueString,
            CapabilityName := state.CapabilityName.ValueString,
            CapabilityMode := state.CapabilityMode.ValueString },
        Body := none } := hreq
  have haccepted : c.newRequestError req = none →
      Delete c state =
        ((match c.doRequest req with
          | .error err =>
            { Diagnostics :=
                [{ Summary := "Error Deleting Tableau Project permissions",
                   Format := "Could not project permissions, unexpected error: %s",
                   Args := [err] }],
              State := none }
          | .ok _ => { Diagnostics := [], State := none }), [req]) := by
    intro hnone
    rw [hurl] at hnone ⊢
    unfold Delete
    simp only
    rw [DeleteProjectPermission_of_accepted c _ hnone]
    cases c.doRequest _ <;> rfl
  have hrejected : ∀ err, c.newRequestError req = some err →
      Delete c state =
        ({ Diagnostics :=
             [{ Summary := "Error Deleting Tableau Project permissions",
                Format := "Could not project permissions, unexpected error: %s",
                Args := [err] }],
           State := none }, []) := by
    intro err hsome
    rw [hurl] at hsome
    unfold Delete
    simp only
    rw [DeleteProjectPermission_of_rejected c _ err hsome]
  have hlog : (Delete c state).2 = [req] ∨ (Delete c state).2 = [] := by
    cases hverdict : c.newRequestError req with
    | none => left; rw [haccepted hverdict]
    | some err => right; rw [hrejected err hverdict]
  refine ⟨haccepted, hrejected, ?_, ?_⟩
  · intro request hmem
    rcases hlog with hl | hl
    · rw [hl, List.mem_singleton] at hmem
      rw [hmem, hreq]
      simp
    · rw [hl] at hmem
      cases hmem
  · rcases hlog with hl | hl <;> rw [hl] <;> simp

/-- The group grant of project p1 is removed by one DELETE on its groups path. -/
theorem Delete_requests_witness :
    Delete escapeCheckingClient
        { ProjectID := .known "p1", GroupID := .known "g1", UserID := .null,
          CapabilityName := .known "Read", CapabilityMode := .known "Allow" }
      = ({ Diagnostics := [], State := none },
         [{ Method := "DELETE",
            URL := "https://tableau.example/api/3.19/sites/s1/projects/p1/permissions/groups/g1/Read/Allow",
            Body := none }]) :=
  (Delete_requests escapeCheckingClient
    { ProjectID := .known "p1", GroupID := .known "g1", UserID := .null,
      CapabilityName := .known "Read", CapabilityMode := .known "Allow" }
    { Method := "DELETE",
      URL := "https://tableau.example/api/3.19/sites/s1/projects/p1/permissions/groups/g1/Read/Allow",
      Body := none }
    (by decide)).1 (by decide)

end tableau
